import Mathlib

/-!
# The `task` command line: dispatch, confirmation and table rendering

A shallow embedding of `src/task.go`.  The program is a single `main` that
reads the positional arguments left by `flag.Parse`, selects one branch of a
`switch`, talks to the task manager `tm`, possibly asks `prompt.Choose`, and
prints through a handful of text helpers.

What is outside `src/task.go` is taken as a parameter:

* the task manager (package `taskmanager`) is an arbitrary state-passing
  implementation `TaskManager σ ρ`;
* `prompt.Choose` is an arbitrary function giving the chosen index;
* `runtime.GOOS` is an arbitrary string.

A run of `main` yields the final store, the list of observable events in
program order (every task-manager call, every prompt, every output call) and
whether the run ended in a Go runtime panic.
-/

namespace TaskCli

/-! ## Data model -/

/-- The record `taskmanager.Task`, with the fields `task.go` reads. -/
structure Task where
  Id : Int
  UID : String
  Description : String
  Tag : String
  Completed : String
  Created : String
  Updated : String
deriving DecidableEq, Repr

/-- The type `taskmanager.Tasks`. -/
abbrev Tasks := List Task

/-- A Go `error` value: `none` is `nil`, `some msg` has `err.Error() = msg`. -/
abbrev error := Option String

/-- One call of an operation of the task manager, with its arguments. -/
inductive StoreCall where
  | Add (description tag : String)
  | GetTask (id : Int)
  | GetAllTasks
  | GetPendingTasks
  | GetLastId
  | UpdateTask (id : Int) (description : String)
  | MarkAsCompleteTask (id : Int)
  | MarkAsPendingTask (id : Int)
  | RemoveTask (id : Int)
  | FlushDB
  | TotalTask
  | PendingTask
deriving DecidableEq, Repr

/-- The operations that change the persisted collection. -/
def StoreCall.mutating : StoreCall → Bool
  | .Add _ _ => true
  | .UpdateTask _ _ => true
  | .MarkAsCompleteTask _ => true
  | .MarkAsPendingTask _ => true
  | .RemoveTask _ => true
  | .FlushDB => true
  | _ => false

/-- The two operations that delete tasks. -/
def StoreCall.destructive : StoreCall → Bool
  | .RemoveTask _ => true
  | .FlushDB => true
  | _ => false

/-- The task manager `tm`, as a state-passing interface over a store `σ`.
The result types are those the call sites of `task.go` fix.  The second
result of `UpdateTask` is discarded by `main` with `_` and its declaration is
not among the sources, so its type `ρ` is left open; the spec says the
operation fails with NotFound when the id is absent, and the in-memory task
manager below takes `ρ` to be `error`, as for the sibling operations. -/
structure TaskManager (σ ρ : Type) where
  Add : σ → String → String → σ
  GetTask : σ → Int → σ × Task × error
  GetAllTasks : σ → σ × Tasks
  GetPendingTasks : σ → σ × Tasks
  GetLastId : σ → σ × Int
  UpdateTask : σ → Int → String → σ × String × ρ
  MarkAsCompleteTask : σ → Int → σ × Task × error
  MarkAsPendingTask : σ → Int → σ × Task × error
  RemoveTask : σ → Int → σ × error
  FlushDB : σ → σ × error
  TotalTask : σ → σ × Int
  PendingTask : σ → σ × Int

/-- The table built with `tablewriter`: header, footer and appended rows. -/
structure Table where
  header : List String
  footer : List String
  rows : List (List String)
deriving DecidableEq, Repr

/-- The method `table.Append`. -/
def Table.Append (t : Table) (row : List String) : Table :=
  { t with rows := t.rows ++ [row] }

/-- Which coloured helper printed a message. -/
inductive Colour where
  | success
  | warning
  | error
deriving DecidableEq, Repr

/-- An observable step of a run. -/
inductive Event where
  /-- a call of a task-manager operation -/
  | store (c : StoreCall)
  /-- a call of `prompt.Choose` and the index it returned -/
  | choose (question : String) (options : List String) (answer : Int)
  /-- a call of `successText`, `warningText` or `errorText` -/
  | text (k : Colour) (str : String)
  /-- a call of `fmt.Fprintln(os.Stdout, str)` -/
  | println (str : String)
  /-- a call of `fmt.Fprintf(os.Stdout, format)` -/
  | printf (format : String)
  /-- a call of `fmt.Fprint(os.Stderr, str)` -/
  | stderr (str : String)
  /-- a call of `table.Render()` -/
  | render (t : Table)
deriving DecidableEq, Repr

/-- What surrounds `main`: the task manager, the platform, the prompt. -/
structure Env (σ ρ : Type) where
  tm : TaskManager σ ρ
  GOOS : String
  Choose : String → List String → Int

/-- The outcome of running a function of `task.go`. -/
structure Run (σ : Type) where
  store : σ
  trace : List Event
  panicked : Bool

/-! ## Library functions used by `task.go` -/

/-- The function `strings.Join`: the elements with `sep` between them. -/
def Join : List String → String → String
  | [], _ => ""
  | e :: es, sep => es.foldl (fun b s => b ++ sep ++ s) e

/-- The function `strconv.Itoa`. -/
def Itoa (i : Int) : String := toString i

/-- The decimal string of an integer, in the words of the claims, to be
compared with `Itoa`: a minus sign when the integer is negative, then the
base-10 digits of its absolute value, most significant first; zero is
written "0". -/
def decimalString (i : Int) : String :=
  let digits :=
    if i.natAbs = 0 then "0"
    else String.mk ((Nat.digits 10 i.natAbs).reverse.map Nat.digitChar)
  if i < 0 then "-" ++ digits else digits

/-- The two failures of `strconv.Atoi`. -/
inductive NumError where
  | ErrSyntax
  | ErrRange
deriving DecidableEq, Repr

/-- The function `strconv.Atoi` for a 64-bit `int`: an optional sign and
decimal digits; 0 on a malformed string, the nearest bound when out of
range. -/
def Atoi (s : String) : Int × Option NumError :=
  let cs := s.toList
  let neg := cs.head? = some '-'
  let ds := if cs.head? = some '-' ∨ cs.head? = some '+' then cs.tail else cs
  if ds = [] ∨ ds.all Char.isDigit = false then (0, some .ErrSyntax)
  else
    let un : Nat := ds.foldl (fun n ch => n * 10 + (ch.toNat - 48)) 0
    if ¬ neg ∧ un ≥ 2 ^ 63 then ((2 : Int) ^ 63 - 1, some .ErrRange)
    else if neg ∧ un > 2 ^ 63 then (-(2 : Int) ^ 63, some .ErrRange)
    else if neg then (-(un : Int), none)
    else ((un : Int), none)

/-- The function `flag.Arg`: the i-th positional argument, or `""`. -/
def Arg (args : List String) (i : Nat) : String := args.getD i ""

/-- The slice expression `args[lo:]`; `none` is the runtime panic
"slice bounds out of range". -/
def sliceFrom (args : List String) (lo : Nat) : Option (List String) :=
  if lo ≤ args.length then some (args.drop lo) else none

/-! ## Constants of `task.go` -/

def USAGE : String :=
  "Usage:\n\tName:\n\t\tTask manager\n\tDescription:\n\t\tYour favourite task list or todo manager\n\tVersion:\n\t\t1.0.0\n\t$ task\n\t\tShow all tasks\n\t$ task p\n\t\tShow all pending tasks\n\t$ task a Watch Games of thrones\n\t\tAdd a new task [Watch Games of thrones] to list\n\t$ task del\n\t\tRemove latest task from list\n\t$ task rm ID\n\t\tRemove task of ID from list\n\t$ task s ID\n\t\tShow detail view task of ID\n\t$ task c ID\n\t\tMark task of ID as completed\n\t$ task m ID Pirates of the Caribbean\n\t\tModify a task\n\t$ task p ID\n\t\tMark task of ID as pending\n\t$ task flush\n\t\tFlush the database!\n"

def COMPLETED_MARK : String := "✓"

def PENDING_MARK : String := "☓"

/-! ## The helpers of `task.go` -/

/-- The function `pendingMark`. -/
def pendingMark (GOOS : String) : String :=
  let pending := PENDING_MARK
  if GOOS = "windows" then "x" else pending

/-- The function `printText`. -/
def printText (str : String) : Event := .printf (str ++ "\n")

/-- The function `successText`, recorded as the call with its argument; the
colouring of the terminal is kept as the kind of the message. -/
def successText (str : String) : Event := .text .success str

/-- The function `warningText`. -/
def warningText (str : String) : Event := .text .warning str

/-- The function `errorText`. -/
def errorText (str : String) : Event := .text .error str

/-- The status cell computed in the loop body of `showTasksInTable`. -/
def statusOf (GOOS : String) (task : Task) : String :=
  -- the initial `status := PENDING_MARK` is overwritten on both paths
  if task.Completed ≠ "" then COMPLETED_MARK else pendingMark GOOS

/-- The row appended for one task in the loop of `showTasksInTable`. -/
def rowOf (GOOS : String) (task : Task) : List String :=
  [Itoa task.Id, task.Description, statusOf GOOS task, task.Created]

/-- The table `showTasksInTable` has built when it calls `table.Render`:
the header and footer are set, then the loop appends one row per task. -/
def buildTable (GOOS : String) (total pending : Int) (tasks : Tasks) : Table :=
  let table : Table :=
    { header := ["ID", "Description", COMPLETED_MARK ++ "/" ++ pendingMark GOOS, "Created"],
      footer := ["", "Total: " ++ Itoa total, "", "Pending: " ++ Itoa pending],
      rows := [] }
  tasks.foldl (fun table task => table.Append (rowOf GOOS task)) table

/-- The function `showTasksInTable`. -/
def showTasksInTable {σ ρ : Type} (env : Env σ ρ) (s : σ) (tasks : Tasks) : Run σ :=
  let (s1, total) := env.tm.TotalTask s
  let (s2, pending) := env.tm.PendingTask s1
  { store := s2,
    trace := [.println "", .store .TotalTask, .store .PendingTask,
              .render (buildTable env.GOOS total pending tasks), .println ""],
    panicked := false }

/-- The function `showTask`. -/
def showTask (task : Task) : List Event :=
  [.println "",
   printText "Task Details view",
   printText "--------------------------------",
   printText ("ID: " ++ Itoa task.Id),
   printText ("UID: " ++ task.UID),
   printText ("Description: " ++ task.Description),
   printText ("Tag: " ++ task.Tag),
   printText ("Created: " ++ task.Created),
   printText ("Updated: " ++ task.Updated),
   .println ""]

/-! ## Dispatch -/

/-- The branches of the `switch` in `main`, in source order. -/
inductive Branch where
  | listAll
  | add
  | listPending
  | delLatest
  | rm
  | update
  | complete
  | pending
  | detail
  | flush
  | help
  | default
deriving DecidableEq, Repr

/-- The branch the `switch` of `main` selects: the first `case` whose
condition holds.  In Go `&&` binds tighter than `||`, so an argument count
written after the last alias of a case constrains that alias only. -/
def selectBranch (args : List String) : Branch :=
  let cmd := Arg args 0
  let argsLen := args.length
  if cmd = "" ∨ cmd = "l" ∨ (cmd = "ls" ∧ argsLen = 1) then .listAll
  else if cmd = "a" ∨ (cmd = "add" ∧ argsLen ≥ 1) then .add
  else if cmd = "p" ∨ (cmd = "pending" ∧ argsLen = 1) then .listPending
  else if cmd = "del" ∨ (cmd = "delete" ∧ argsLen = 1) then .delLatest
  else if cmd = "r" ∨ (cmd = "rm" ∧ argsLen = 2) then .rm
  else if cmd = "e" ∨ cmd = "m" ∨ (cmd = "u" ∧ argsLen ≥ 2) then .update
  else if cmd = "c" ∨ cmd = "d" ∨ (cmd = "done" ∧ argsLen ≥ 2) then .complete
  else if cmd = "i" ∨ cmd = "p" ∨ (cmd = "pending" ∧ argsLen ≥ 2) then .pending
  else if cmd = "s" ∧ argsLen = 2 then .detail
  else if cmd = "flush" then .flush
  else if cmd = "h" ∨ cmd = "v" then .help
  else .default

/-- The function `main`, from the positional arguments `flag.Args()` on. -/
def main {σ ρ : Type} (env : Env σ ρ) (args : List String) (s : σ) : Run σ :=
  let cmd := Arg args 0
  match selectBranch args with
  | .listAll =>
    let (s1, tasks) := env.tm.GetAllTasks s
    let r := showTasksInTable env s1 tasks
    { r with trace := .store .GetAllTasks :: r.trace }
  | .add =>
    match sliceFrom args 1 with
    | none => { store := s, trace := [], panicked := true }
    | some rest =>
      let s1 := env.tm.Add s (Join rest " ") ""
      { store := s1,
        trace := [.store (.Add (Join rest " ") ""),
                  successText (" Added to list: " ++ Join rest " " ++ " ")],
        panicked := false }
  | .listPending =>
    let (s1, tasks) := env.tm.GetPendingTasks s
    let r := showTasksInTable env s1 tasks
    { r with trace := .store .GetPendingTasks :: r.trace }
  | .delLatest =>
    let question := "Do you want to delete latest task?"
    let p := env.Choose question ["yes", "no"]
    if p = 1 then
      { store := s,
        trace := [.choose question ["yes", "no"] p, warningText " Task delete aboarted! "],
        panicked := false }
    else
      let (s1, last) := env.tm.GetLastId s
      let (s2, err) := env.tm.RemoveTask s1 last
      match err with
      | some msg =>
        { store := s2,
          trace := [.choose question ["yes", "no"] p, .store .GetLastId,
                    .store (.RemoveTask last), errorText msg],
          panicked := false }
      | none =>
        { store := s2,
          trace := [.choose question ["yes", "no"] p, .store .GetLastId,
                    .store (.RemoveTask last), successText " Removed latest task "],
          panicked := false }
  | .rm =>
    let id := (Atoi (Arg args 1)).1
    let question := "Do you want to delete task of id " ++ Arg args 1 ++ " ?"
    let p := env.Choose question ["yes", "no"]
    if p = 1 then
      { store := s,
        trace := [.choose question ["yes", "no"] p, warningText " Task delete aboarted! "],
        panicked := false }
    else
      let (s1, err) := env.tm.RemoveTask s id
      match err with
      | some msg =>
        { store := s1,
          trace := [.choose question ["yes", "no"] p, .store (.RemoveTask id), errorText msg],
          panicked := false }
      | none =>
        { store := s1,
          trace := [.choose question ["yes", "no"] p, .store (.RemoveTask id),
                    successText (" Task " ++ Itoa id ++ " removed! ")],
          panicked := false }
  | .update =>
    let id := (Atoi (Arg args 1)).1
    match sliceFrom args 2 with
    | none => { store := s, trace := [], panicked := true }
    | some rest =>
      let (s1, ok, _) := env.tm.UpdateTask s id (Join rest " ")
      { store := s1,
        trace := [.store (.UpdateTask id (Join rest " ")), successText ok],
        panicked := false }
  | .complete =>
    let id := (Atoi (Arg args 1)).1
    let (s1, task, err) := env.tm.MarkAsCompleteTask s id
    match err with
    | some msg =>
      { store := s1, trace := [.store (.MarkAsCompleteTask id), errorText msg],
        panicked := false }
    | none =>
      { store := s1,
        trace := [.store (.MarkAsCompleteTask id),
                  successText (" " ++ COMPLETED_MARK ++ " " ++ task.Description)],
        panicked := false }
  | .pending =>
    let id := (Atoi (Arg args 1)).1
    let (s1, task, err) := env.tm.MarkAsPendingTask s id
    match err with
    | some msg =>
      { store := s1, trace := [.store (.MarkAsPendingTask id), errorText msg],
        panicked := false }
    | none =>
      { store := s1,
        trace := [.store (.MarkAsPendingTask id),
                  successText (" " ++ pendingMark env.GOOS ++ " " ++ task.Description)],
        panicked := false }
  | .detail =>
    let id := (Atoi (Arg args 1)).1
    let (s1, task, err) := env.tm.GetTask s id
    match err with
    | some msg =>
      { store := s1, trace := [.store (.GetTask id), errorText msg], panicked := false }
    | none =>
      { store := s1, trace := .store (.GetTask id) :: showTask task, panicked := false }
  | .flush =>
    let question := "Do you want to delete all tasks?"
    let p := env.Choose question ["yes", "no"]
    if p = 1 then
      { store := s,
        trace := [.choose question ["yes", "no"] p, warningText " Flush aborted! "],
        panicked := false }
    else
      let (s1, err) := env.tm.FlushDB s
      match err with
      | some msg =>
        { store := s1, trace := [.choose question ["yes", "no"] p, .store .FlushDB, errorText msg],
          panicked := false }
      | none =>
        { store := s1,
          trace := [.choose question ["yes", "no"] p, .store .FlushDB,
                    successText " Database flushed successfully! "],
          panicked := false }
  | .help =>
    { store := s, trace := [.stderr USAGE], panicked := false }
  | .default =>
    { store := s,
      trace := [errorText (" [No command found by " ++ cmd ++ "] "), .stderr ("\n" ++ USAGE)],
      panicked := false }

/-! ## Reading a trace -/

/-- The task-manager calls of a trace, in order. -/
def storeCalls : List Event → List StoreCall
  | [] => []
  | .store c :: es => c :: storeCalls es
  | _ :: es => storeCalls es

/-- The messages of a trace printed by the coloured helpers, in order. -/
def texts : List Event → List (Colour × String)
  | [] => []
  | .text k str :: es => (k, str) :: texts es
  | _ :: es => texts es

/-- What a trace prints: every event except the task-manager calls and the
prompts. -/
def outputs : List Event → List Event
  | [] => []
  | .store _ :: es => outputs es
  | .choose _ _ _ :: es => outputs es
  | e :: es => e :: outputs es

/-! ## An in-memory task manager -/

/-- The state of the in-memory task manager. -/
structure Store where
  nextId : Int
  tasks : Tasks
deriving DecidableEq, Repr

/-- Replace the task of the given id by its image under `f`. -/
def Store.modify (st : Store) (id : Int) (f : Task → Task) : Store :=
  { st with tasks := st.tasks.map (fun t => if t.Id = id then f t else t) }

/-- Modelled from the spec: package `taskmanager` is not among the sources;
this is the store of the spec, section 4.1, kept in memory, with a fixed
clock reading `now` and a fixed `uid`.  It serves as a concrete task manager
on which `main` can be evaluated. -/
def memStore (now uid : String) : TaskManager Store error where
  Add st description tag :=
    { nextId := st.nextId + 1,
      tasks := st.tasks ++ [{ Id := st.nextId, UID := uid, Description := description,
                              Tag := tag, Completed := "", Created := now, Updated := now }] }
  GetTask st id :=
    match st.tasks.find? (fun t => t.Id = id) with
    | some t => (st, t, none)
    | none => (st, ⟨0, "", "", "", "", "", ""⟩, some "Task not found")
  GetAllTasks st := (st, st.tasks)
  GetPendingTasks st := (st, st.tasks.filter (fun t => t.Completed = ""))
  GetLastId st := (st, match st.tasks.getLast? with | some t => t.Id | none => 0)
  UpdateTask st id description :=
    match st.tasks.find? (fun t => t.Id = id) with
    | some _ =>
      (st.modify id (fun t => { t with Description := description, Updated := now }),
       "Task has been updated", none)
    | none => (st, "", some "Task not found")
  MarkAsCompleteTask st id :=
    match st.tasks.find? (fun t => t.Id = id) with
    | some t =>
      (st.modify id (fun t => { t with Completed := now, Updated := now }),
       { t with Completed := now, Updated := now }, none)
    | none => (st, ⟨0, "", "", "", "", "", ""⟩, some "Task not found")
  MarkAsPendingTask st id :=
    match st.tasks.find? (fun t => t.Id = id) with
    | some t =>
      (st.modify id (fun t => { t with Completed := "", Updated := now }),
       { t with Completed := "", Updated := now }, none)
    | none => (st, ⟨0, "", "", "", "", "", ""⟩, some "Task not found")
  RemoveTask st id :=
    match st.tasks.find? (fun t => t.Id = id) with
    | some _ => ({ st with tasks := st.tasks.filter (fun t => t.Id ≠ id) }, none)
    | none => (st, some "Task not found")
  FlushDB st := ({ st with tasks := [] }, none)
  TotalTask st := (st, st.tasks.length)
  PendingTask st := (st, (st.tasks.filter (fun t => t.Completed = "")).length)

/-- A store holding two tasks, the first completed. -/
def sampleStore : Store :=
  { nextId := 3,
    tasks := [⟨1, "u1", "Buy milk", "", "2017-01-02", "2017-01-01", "2017-01-02"⟩,
              ⟨2, "u2", "Buy eggs", "", "", "2017-01-03", "2017-01-03"⟩] }

/-- A Linux terminal in which the user answers "yes" (index 0). -/
def envYes : Env Store error :=
  { tm := memStore "2017-02-01" "u", GOOS := "linux", Choose := fun _ _ => 0 }

/-- A Linux terminal in which the user answers "no" (index 1). -/
def envNo : Env Store error :=
  { tm := memStore "2017-02-01" "u", GOOS := "linux", Choose := fun _ _ => 1 }

/-! ## Lemmas on the library functions and the table loop -/

theorem Join_foldl_eq_go (sep : String) (es : List String) (acc : String) :
    es.foldl (fun b s => b ++ sep ++ s) acc = String.intercalate.go acc sep es := by
  induction es generalizing acc with
  | nil => rfl
  | cons e es ih => simpa [String.intercalate.go] using ih (acc ++ sep ++ e)

/-- `strings.Join` as embedded is the library's `String.intercalate`. -/
theorem Join_eq_intercalate (es : List String) (sep : String) :
    Join es sep = sep.intercalate es := by
  cases es with
  | nil => rfl
  | cons e es => simpa [Join, String.intercalate] using Join_foldl_eq_go sep es e

theorem toDigitsCore_eq_digits (n : Nat) :
    ∀ (fuel : Nat) (ds : List Char), 0 < n → n < fuel →
      Nat.toDigitsCore 10 fuel n ds = (Nat.digits 10 n).reverse.map Nat.digitChar ++ ds := by
  induction n using Nat.strong_induction_on with
  | _ n ih =>
    intro fuel ds hpos hlt
    cases fuel with
    | zero => omega
    | succ f =>
      rw [Nat.digits_def' (by decide) hpos]
      simp only [Nat.toDigitsCore]
      by_cases h0 : n / 10 = 0
      · simp [h0]
      · rw [if_neg h0, ih (n / 10) (Nat.div_lt_self hpos (by decide)) f _
          (Nat.pos_of_ne_zero h0) (by omega)]
        simp

theorem Nat_repr_eq_digits (n : Nat) (h : 0 < n) :
    Nat.repr n = String.mk ((Nat.digits 10 n).reverse.map Nat.digitChar) := by
  simp [Nat.repr, Nat.toDigits, toDigitsCore_eq_digits n (n + 1) [] h (by omega), List.asString]

/-- `strconv.Itoa` as embedded yields the decimal string of its argument. -/
theorem Itoa_eq_decimalString (i : Int) : Itoa i = decimalString i := by
  cases i with
  | ofNat m =>
    cases m with
    | zero => rfl
    | succ k =>
      have h : Itoa (Int.ofNat (k + 1)) = Nat.repr (k + 1) := rfl
      have h1 : (Int.ofNat (k + 1)).natAbs = k + 1 := rfl
      have h2 : ¬ (Int.ofNat (k + 1) < 0) := Int.not_lt.mpr (Int.ofNat_nonneg _)
      rw [h, Nat_repr_eq_digits _ (Nat.succ_pos k)]
      simp only [decimalString, h1, if_neg h2, if_neg (Nat.succ_ne_zero k)]
  | negSucc m =>
    have h : Itoa (Int.negSucc m) = "-" ++ Nat.repr (m + 1) := rfl
    have h1 : (Int.negSucc m).natAbs = m + 1 := rfl
    have h2 : Int.negSucc m < 0 := Int.negSucc_lt_zero m
    rw [h, Nat_repr_eq_digits _ (Nat.succ_pos m)]
    simp only [decimalString, h1, if_pos h2, if_neg (Nat.succ_ne_zero m)]

/-- The row of a task, cell by cell. -/
theorem rowOf_cells (GOOS : String) (task : Task) :
    rowOf GOOS task =
      [decimalString task.Id, task.Description,
       if task.Completed ≠ "" then "\u2713"
       else if GOOS = "windows" then "x" else "\u2613",
       task.Created] := by
  rw [← Itoa_eq_decimalString]
  rfl

theorem foldl_Append_rows (f : Task → List String) (tasks : Tasks) (t : Table) :
    (tasks.foldl (fun table task => table.Append (f task)) t).rows
      = t.rows ++ tasks.map f := by
  induction tasks generalizing t with
  | nil => simp
  | cons a as ih =>
    rw [List.foldl_cons, ih]
    simp [Table.Append]

theorem buildTable_rows (GOOS : String) (total pending : Int) (tasks : Tasks) :
    (buildTable GOOS total pending tasks).rows = tasks.map (rowOf GOOS) := by
  simp [buildTable, foldl_Append_rows]

theorem pendingMark_ne_completed (GOOS : String) : pendingMark GOOS ≠ COMPLETED_MARK := by
  unfold pendingMark
  split <;> decide

theorem showTasksInTable_trace {σ ρ : Type} (env : Env σ ρ) (s : σ) (tasks : Tasks) :
    (showTasksInTable env s tasks).trace =
      [.println "", .store .TotalTask, .store .PendingTask,
       .render (buildTable env.GOOS (env.tm.TotalTask s).2
                  (env.tm.PendingTask (env.tm.TotalTask s).1).2 tasks),
       .println ""] := by
  rfl

/-! ## Lemmas on dispatch -/

theorem ite_ne_skip {c : Prop} [Decidable c] {a b v : Branch} (hne : a ≠ v)
    (h : (if c then a else b) = v) : b = v := by
  by_cases hc : c
  · rw [if_pos hc] at h; exact absurd h hne
  · rw [if_neg hc] at h; exact h

theorem selectBranch_a (rest : List String) : selectBranch ("a" :: rest) = .add := by
  simp [selectBranch, Arg]

theorem selectBranch_add (rest : List String) : selectBranch ("add" :: rest) = .add := by
  simp [selectBranch, Arg]

theorem selectBranch_p (rest : List String) : selectBranch ("p" :: rest) = .listPending := by
  simp [selectBranch, Arg]

theorem selectBranch_e (rest : List String) : selectBranch ("e" :: rest) = .update := by
  simp [selectBranch, Arg]

theorem selectBranch_m (rest : List String) : selectBranch ("m" :: rest) = .update := by
  simp [selectBranch, Arg]

theorem selectBranch_nil : selectBranch [] = .listAll := by
  simp [selectBranch, Arg]

/-- The update branch is selected only on its own condition. -/
theorem selectBranch_update_cond (args : List String) (h : selectBranch args = .update) :
    Arg args 0 = "e" ∨ Arg args 0 = "m" ∨ (Arg args 0 = "u" ∧ args.length ≥ 2) := by
  unfold selectBranch at h
  dsimp only at h
  have h := ite_ne_skip (by decide) h
  have h := ite_ne_skip (by decide) h
  have h := ite_ne_skip (by decide) h
  have h := ite_ne_skip (by decide) h
  have h := ite_ne_skip (by decide) h
  by_cases hc : Arg args 0 = "e" ∨ Arg args 0 = "m" ∨ (Arg args 0 = "u" ∧ args.length ≥ 2)
  · exact hc
  · rw [if_neg hc] at h
    have h := ite_ne_skip (by decide) h
    have h := ite_ne_skip (by decide) h
    have h := ite_ne_skip (by decide) h
    have h := ite_ne_skip (by decide) h
    have h := ite_ne_skip (by decide) h
    cases h

/-- A run ends in a panic exactly when a slice expression it evaluates is
out of bounds. -/
theorem main_panicked_iff {σ ρ : Type} (env : Env σ ρ) (args : List String) (s : σ) :
    (main env args s).panicked = true ↔
      (selectBranch args = .add ∧ sliceFrom args 1 = none) ∨
      (selectBranch args = .update ∧ sliceFrom args 2 = none) := by
  unfold main showTasksInTable
  cases selectBranch args <;> dsimp only <;> (repeat' split) <;> simp_all

theorem sliceFrom_eq_none (args : List String) (lo : Nat) :
    sliceFrom args lo = none ↔ args.length < lo := by
  unfold sliceFrom
  split <;> simp <;> omega

/-- The sibling branches of the update branch do report an error of the task
manager: when MarkAsCompleteTask, MarkAsPendingTask, GetTask, RemoveTask or
FlushDB returns an error, the only coloured message of the run is that error
through errorText. -/
theorem sibling_branches_report_errors {σ ρ : Type} (env : Env σ ρ) (args : List String)
    (s : σ) (msg : String) :
    (selectBranch args = .complete →
      (env.tm.MarkAsCompleteTask s (Atoi (Arg args 1)).1).2.2 = some msg →
      texts (main env args s).trace = [(Colour.error, msg)]) ∧
    (selectBranch args = .pending →
      (env.tm.MarkAsPendingTask s (Atoi (Arg args 1)).1).2.2 = some msg →
      texts (main env args s).trace = [(Colour.error, msg)]) ∧
    (selectBranch args = .detail →
      (env.tm.GetTask s (Atoi (Arg args 1)).1).2.2 = some msg →
      texts (main env args s).trace = [(Colour.error, msg)]) ∧
    (selectBranch args = .rm →
      env.Choose ("Do you want to delete task of id " ++ Arg args 1 ++ " ?") ["yes", "no"] ≠ 1 →
      (env.tm.RemoveTask s (Atoi (Arg args 1)).1).2 = some msg →
      texts (main env args s).trace = [(Colour.error, msg)]) ∧
    (selectBranch args = .delLatest →
      env.Choose "Do you want to delete latest task?" ["yes", "no"] ≠ 1 →
      (env.tm.RemoveTask (env.tm.GetLastId s).1 (env.tm.GetLastId s).2).2 = some msg →
      texts (main env args s).trace = [(Colour.error, msg)]) ∧
    (selectBranch args = .flush →
      env.Choose "Do you want to delete all tasks?" ["yes", "no"] ≠ 1 →
      (env.tm.FlushDB s).2 = some msg →
      texts (main env args s).trace = [(Colour.error, msg)]) := by
  unfold main showTasksInTable
  cases selectBranch args <;> dsimp only <;> (repeat' split) <;>
    simp_all [texts, successText, warningText, errorText, showTask, printText]

/-! ## The claims -/

/-- C1 (defect in the code): the usage text promises that `task p ID` marks
the task of that ID as pending, but for every ID the arguments `["p", ID]`
select the list-pending branch: the task manager is asked for
GetPendingTasks, TotalTask and PendingTask, and MarkAsPendingTask is never
called.  The long alias behaves as documented: `["pending", "1"]` calls
MarkAsPendingTask 1. -/
theorem p_with_id_lists_pending {σ ρ : Type} (env : Env σ ρ) (ID : String) (s : σ) :
    selectBranch ["p", ID] = .listPending ∧
    storeCalls (main env ["p", ID] s).trace = [.GetPendingTasks, .TotalTask, .PendingTask] ∧
    (∀ id, StoreCall.MarkAsPendingTask id ∉ storeCalls (main env ["p", ID] s).trace) ∧
    storeCalls (main envYes ["pending", "1"] sampleStore).trace = [.MarkAsPendingTask 1] := by
  have hb : selectBranch ["p", ID] = .listPending := selectBranch_p [ID]
  have ht : storeCalls (main env ["p", ID] s).trace
      = [.GetPendingTasks, .TotalTask, .PendingTask] := by
    simp only [main, hb, showTasksInTable]
    rfl
  refine ⟨hb, ht, ?_, by decide⟩
  intro id
  rw [ht]
  simp

/-- C2: a destructive call is never made without confirmation.  In every
run of `main` that calls RemoveTask or FlushDB, the first event of the run
is the call of `prompt.Choose` with the options yes/no, and its answer is
not 1; and in every run in which `prompt.Choose` answered 1 ("no"), no
task-manager operation is called at all (so neither RemoveTask nor FlushDB)
and the only thing printed is the abort warning. -/
theorem destructive_only_after_confirmation {σ ρ : Type} (env : Env σ ρ)
    (args : List String) (s : σ) :
    ((∃ c ∈ storeCalls (main env args s).trace, c.destructive = true) →
      ∃ q rest, (main env args s).trace
          = .choose q ["yes", "no"] (env.Choose q ["yes", "no"]) :: rest ∧
        env.Choose q ["yes", "no"] ≠ 1) ∧
    (∀ q opts, Event.choose q opts 1 ∈ (main env args s).trace →
      (∀ c ∈ storeCalls (main env args s).trace, c.destructive = false) ∧
      storeCalls (main env args s).trace = [] ∧
      (outputs (main env args s).trace = [warningText " Task delete aboarted! "] ∨
       outputs (main env args s).trace = [warningText " Flush aborted! "])) := by
  unfold main showTasksInTable
  cases selectBranch args <;> dsimp only <;> (repeat' split) <;>
    simp_all [storeCalls, outputs, StoreCall.destructive, successText, warningText,
      errorText, showTask, printText]
  all_goals
    exact ⟨⟨_, ⟨rfl, rfl⟩, by assumption⟩, fun h1 => absurd h1.symm (by assumption)⟩

/-- Witness for C2: deleting task 1 after answering "yes" calls RemoveTask
after the prompt; answering "no" calls nothing and prints the warning. -/
theorem destructive_only_after_confirmation_witness :
    (∃ c ∈ storeCalls (main envYes ["rm", "1"] sampleStore).trace, c.destructive = true) ∧
    (∃ q rest, (main envYes ["rm", "1"] sampleStore).trace
        = .choose q ["yes", "no"] (envYes.Choose q ["yes", "no"]) :: rest ∧
      envYes.Choose q ["yes", "no"] ≠ 1) ∧
    Event.choose "Do you want to delete all tasks?" ["yes", "no"] 1
      ∈ (main envNo ["flush"] sampleStore).trace ∧
    outputs (main envNo ["flush"] sampleStore).trace = [warningText " Flush aborted! "] :=
  ⟨by decide,
   (destructive_only_after_confirmation envYes ["rm", "1"] sampleStore).1 (by decide),
   by decide, by decide⟩

/-- C3 (defect in the code): the update branch discards the error of
UpdateTask.  For every id and every words, `task m ID words...` prints
exactly one coloured message, the first result of UpdateTask through
successText, whatever the error result is; nothing goes through errorText.
On the sample store, updating the absent id 9 fails with "Task not found",
and the run prints the empty success message. -/
theorem update_error_is_discarded {σ ρ : Type} (env : Env σ ρ) (ID : String)
    (words : List String) (s : σ) :
    texts (main env ("m" :: ID :: words) s).trace
      = [(Colour.success, (env.tm.UpdateTask s (Atoi ID).1 (Join words " ")).2.1)] ∧
    (envYes.tm.UpdateTask sampleStore 9 "x").2.2 = some "Task not found" ∧
    (main envYes ["m", "9", "x"] sampleStore).trace
      = [.store (.UpdateTask 9 "x"), successText ""] := by
  refine ⟨?_, by decide, by decide⟩
  have hb : selectBranch ("m" :: ID :: words) = .update := selectBranch_m _
  simp only [main, hb]
  simp [sliceFrom, Arg, texts, successText]

/-- C4 (defect in the code): aliases of one command do not select the same
branch on the same remaining arguments, because the argument count written
in a `case` constrains its last alias only. -/
theorem aliases_select_different_branches :
    (selectBranch ["l", "x"] = .listAll ∧ selectBranch ["ls", "x"] = .default) ∧
    (selectBranch ["del", "x"] = .delLatest ∧ selectBranch ["delete", "x"] = .default) ∧
    (selectBranch ["r"] = .rm ∧ selectBranch ["rm"] = .default) ∧
    (selectBranch ["e"] = .update ∧ selectBranch ["m"] = .update ∧
      selectBranch ["u"] = .default) ∧
    (selectBranch ["c"] = .complete ∧ selectBranch ["d"] = .complete ∧
      selectBranch ["done"] = .default) ∧
    (selectBranch ["i"] = .pending ∧ selectBranch ["pending"] = .listPending) := by
  decide

/-- C5: `task a words...` and `task add words...` add the words as one
task.  The run does not panic; it calls Add exactly once, with the
remaining arguments joined by single spaces (the empty string when there
are none) and an empty tag, then prints " Added to list: DESCRIPTION "
through successText; Add is its only task-manager call. -/
theorem add_joins_words {σ ρ : Type} (env : Env σ ρ) (args : List String) (s : σ)
    (h : args.head? = some "a" ∨ args.head? = some "add") :
    (main env args s).trace
      = [.store (.Add (" ".intercalate args.tail) ""),
         successText (" Added to list: " ++ " ".intercalate args.tail ++ " ")] ∧
    storeCalls (main env args s).trace = [.Add (" ".intercalate args.tail) ""] ∧
    (main env args s).store = env.tm.Add s (" ".intercalate args.tail) "" ∧
    (main env args s).panicked = false ∧
    (args.tail = [] → " ".intercalate args.tail = "") := by
  have hb : selectBranch args = .add ∧ sliceFrom args 1 = some args.tail := by
    cases args with
    | nil => simp at h
    | cons x rest =>
      simp only [List.head?_cons, Option.some.injEq] at h
      rcases h with h | h
      · subst h; exact ⟨selectBranch_a rest, by simp [sliceFrom]⟩
      · subst h; exact ⟨selectBranch_add rest, by simp [sliceFrom]⟩
  have ht : (main env args s).trace
      = [.store (.Add (" ".intercalate args.tail) ""),
         successText (" Added to list: " ++ " ".intercalate args.tail ++ " ")] := by
    simp only [main, hb.1, hb.2, Join_eq_intercalate]
  refine ⟨ht, ?_, ?_, ?_, ?_⟩
  · rw [ht]; rfl
  · simp only [main, hb.1, hb.2, Join_eq_intercalate]
  · simp only [main, hb.1, hb.2]
  · intro h0; rw [h0]; rfl

/-- Witness for C5: `task a Watch Games`. -/
theorem add_joins_words_witness :
    (main envYes ["a", "Watch", "Games"] sampleStore).trace
      = [.store (.Add "Watch Games" ""), successText " Added to list: Watch Games "] :=
  (add_joins_words envYes ["a", "Watch", "Games"] sampleStore (Or.inl rfl)).1

/-- C6, as the claim states it, fails: listing all tasks of the sample store
calls three task-manager operations, not at most one. -/
theorem list_all_calls_three_operations :
    storeCalls (main envYes [] sampleStore).trace = [.GetAllTasks, .TotalTask, .PendingTask] ∧
    ¬ (storeCalls (main envYes [] sampleStore).trace).length ≤ 1 := by
  decide

/-- C6 (amended): a run of `main` calls at most three task-manager
operations and at most one mutating operation.  The two listing branches
call exactly three, in this order: the list query (GetAllTasks, or
GetPendingTasks), then TotalTask and PendingTask from `showTasksInTable`,
which is run on the store and the tasks the list query returned.  The
delete-latest branch calls none when the prompt answers 1 and otherwise
exactly two, in this order: GetLastId, then RemoveTask of the id GetLastId
returned.  Every other branch calls at most one. -/
theorem store_call_budget {σ ρ : Type} (env : Env σ ρ) (args : List String) (s : σ) :
    (storeCalls (main env args s).trace).length ≤ 3 ∧
    ((storeCalls (main env args s).trace).filter StoreCall.mutating).length ≤ 1 ∧
    (selectBranch args = .listAll →
      storeCalls (main env args s).trace = [.GetAllTasks, .TotalTask, .PendingTask] ∧
      (main env args s).trace = .store .GetAllTasks ::
        (showTasksInTable env (env.tm.GetAllTasks s).1 (env.tm.GetAllTasks s).2).trace) ∧
    (selectBranch args = .listPending →
      storeCalls (main env args s).trace = [.GetPendingTasks, .TotalTask, .PendingTask] ∧
      (main env args s).trace = .store .GetPendingTasks ::
        (showTasksInTable env (env.tm.GetPendingTasks s).1
          (env.tm.GetPendingTasks s).2).trace) ∧
    (selectBranch args = .delLatest →
      (env.Choose "Do you want to delete latest task?" ["yes", "no"] = 1 →
        storeCalls (main env args s).trace = []) ∧
      (env.Choose "Do you want to delete latest task?" ["yes", "no"] ≠ 1 →
        storeCalls (main env args s).trace
          = [.GetLastId, .RemoveTask (env.tm.GetLastId s).2])) ∧
    (selectBranch args ≠ .listAll → selectBranch args ≠ .listPending →
      selectBranch args ≠ .delLatest → (storeCalls (main env args s).trace).length ≤ 1) := by
  unfold main showTasksInTable
  cases selectBranch args <;> dsimp only <;> (repeat' split) <;>
    simp_all [storeCalls, StoreCall.mutating, successText, warningText, errorText, showTask,
      printText]

/-- Witness for C6 (amended): listing calls the list query and then the two
counters; deleting the latest task after "yes" calls GetLastId and then
RemoveTask of the id it returned; marking a task complete calls one
operation. -/
theorem store_call_budget_witness :
    selectBranch ["ls"] = .listAll ∧
    storeCalls (main envYes ["ls"] sampleStore).trace
      = [.GetAllTasks, .TotalTask, .PendingTask] ∧
    selectBranch ["del"] = .delLatest ∧
    storeCalls (main envYes ["del"] sampleStore).trace = [.GetLastId, .RemoveTask 2] ∧
    storeCalls (main envNo ["del"] sampleStore).trace = [] ∧
    (storeCalls (main envYes ["c", "2"] sampleStore).trace).length ≤ 1 :=
  ⟨by decide,
   ((store_call_budget envYes ["ls"] sampleStore).2.2.1 (by decide)).1,
   by decide,
   ((store_call_budget envYes ["del"] sampleStore).2.2.2.2.1 (by decide)).2 (by decide),
   ((store_call_budget envNo ["del"] sampleStore).2.2.2.2.1 (by decide)).1 (by decide),
   (store_call_budget envYes ["c", "2"] sampleStore).2.2.2.2.2
     (by decide) (by decide) (by decide)⟩

/-- C7: the status cell is decided by the Completed field alone.
`showTasksInTable` renders one table; for every task, the third cell of its
row is the completed glyph U+2713 exactly when Completed is non-empty, and
is `pendingMark()` otherwise, which is "x" on windows and U+2613 on every
other platform. -/
theorem status_cell_glyph {σ ρ : Type} (env : Env σ ρ) (s : σ) (tasks : Tasks) :
    ∃ t, (showTasksInTable env s tasks).trace
        = [.println "", .store .TotalTask, .store .PendingTask, .render t, .println ""] ∧
      (∀ i (h : i < tasks.length),
        ((t.rows.getD i []).getD 2 "" = "\u2713" ↔ tasks[i].Completed ≠ "") ∧
        (tasks[i].Completed = "" → (t.rows.getD i []).getD 2 "" = pendingMark env.GOOS)) ∧
      pendingMark env.GOOS = (if env.GOOS = "windows" then "x" else "\u2613") := by
  refine ⟨_, showTasksInTable_trace env s tasks, ?_, rfl⟩
  intro i h
  have hrow : (buildTable env.GOOS (env.tm.TotalTask s).2
      (env.tm.PendingTask (env.tm.TotalTask s).1).2 tasks).rows.getD i []
        = rowOf env.GOOS tasks[i] := by
    rw [buildTable_rows, List.getD_eq_getElem _ _ (by simpa using h), List.getElem_map]
  rw [hrow]
  have hcell : (rowOf env.GOOS tasks[i]).getD 2 "" = statusOf env.GOOS tasks[i] := rfl
  rw [hcell]
  unfold statusOf
  constructor
  · constructor
    · intro hs hc
      rw [if_neg (not_not.mpr hc)] at hs
      exact pendingMark_ne_completed env.GOOS hs
    · intro hc
      rw [if_pos hc]
      rfl
  · intro hc
    rw [if_neg (not_not.mpr hc)]

/-- Witness for C7: in the sample store on Linux, the first task is
completed and the second is pending. -/
theorem status_cell_glyph_witness :
    ∃ t, (showTasksInTable envYes sampleStore sampleStore.tasks).trace
        = [.println "", .store .TotalTask, .store .PendingTask, .render t, .println ""] ∧
      (t.rows.getD 0 []).getD 2 "" = "✓" ∧
      (t.rows.getD 1 []).getD 2 "" = "☓" := by
  obtain ⟨t, ht, hcells, _⟩ := status_cell_glyph envYes sampleStore sampleStore.tasks
  refine ⟨t, ht, ?_, ?_⟩
  · exact (hcells 0 (by decide)).1.2 (by decide)
  · exact (hcells 1 (by decide)).2 (by decide)

/-- C8: the table keeps the order of the tasks it is given.
`showTasksInTable` renders one table whose rows are, in the order of the
input, one row per task: the decimal string of its Id, its Description, its
status glyph (U+2713 when Completed is non-empty, otherwise "x" on windows
and U+2613 elsewhere) and its Created. -/
theorem table_rows_in_order {σ ρ : Type} (env : Env σ ρ) (s : σ) (tasks : Tasks) :
    ∃ t, (showTasksInTable env s tasks).trace
        = [.println "", .store .TotalTask, .store .PendingTask, .render t, .println ""] ∧
      t.rows = tasks.map (fun task =>
        [decimalString task.Id, task.Description,
         if task.Completed ≠ "" then "\u2713"
         else if env.GOOS = "windows" then "x" else "\u2613",
         task.Created]) ∧
      t.rows.length = tasks.length ∧
      ∀ i (h : i < tasks.length),
        t.rows[i]? = some [decimalString tasks[i].Id, tasks[i].Description,
          if tasks[i].Completed ≠ "" then "\u2713"
          else if env.GOOS = "windows" then "x" else "\u2613",
          tasks[i].Created] := by
  refine ⟨_, showTasksInTable_trace env s tasks, ?_, ?_, ?_⟩
  · rw [buildTable_rows]
    exact List.map_congr_left (fun task _ => rowOf_cells env.GOOS task)
  · rw [buildTable_rows, List.length_map]
  · intro i h
    rw [buildTable_rows, List.getElem?_map, List.getElem?_eq_getElem h, Option.map_some',
      rowOf_cells]

/-- Witness for C8: a completed task 12 followed by a pending task 305, on
Linux, give the rows "12" and "305" in that order. -/
theorem table_rows_in_order_witness :
    ∃ t, (showTasksInTable envYes sampleStore
          [⟨12, "u1", "Buy milk", "", "2017-01-02", "2017-01-01", "2017-01-02"⟩,
           ⟨305, "u2", "Buy eggs", "", "", "2017-01-03", "2017-01-03"⟩]).trace
        = [.println "", .store .TotalTask, .store .PendingTask, .render t, .println ""] ∧
      t.rows = [["12", "Buy milk", "\u2713", "2017-01-01"],
                ["305", "Buy eggs", "\u2613", "2017-01-03"]] := by
  obtain ⟨t, ht, hrows, _⟩ := table_rows_in_order envYes sampleStore
    [⟨12, "u1", "Buy milk", "", "2017-01-02", "2017-01-01", "2017-01-02"⟩,
     ⟨305, "u2", "Buy eggs", "", "", "2017-01-03", "2017-01-03"⟩]
  refine ⟨t, ht, ?_⟩
  rw [hrows]
  simp only [← Itoa_eq_decimalString]
  decide

/-- C9 (defect in the code): `main` can slice out of bounds.  A run panics
exactly when the arguments are `["e"]` or `["m"]`: the update branch is
entered with a single argument and `args[2:]` is evaluated before any
task-manager call.  The slice `args[1:]` of the add branch is always in
bounds. -/
theorem update_with_one_argument_panics {σ ρ : Type} (env : Env σ ρ)
    (args : List String) (s : σ) :
    ((main env args s).panicked = true ↔ args = ["e"] ∨ args = ["m"]) ∧
    (selectBranch args = .add → sliceFrom args 1 = some args.tail) ∧
    (selectBranch ["e"] = .update ∧ sliceFrom ["e"] 2 = none ∧
      (main env ["e"] s).panicked = true ∧ (main env ["e"] s).trace = []) := by
  have hadd : selectBranch args = .add → sliceFrom args 1 = some args.tail := by
    intro hb
    cases args with
    | nil => rw [selectBranch_nil] at hb; cases hb
    | cons x rest => simp [sliceFrom]
  refine ⟨⟨?_, ?_⟩, hadd, by decide, by decide, ?_, ?_⟩
  · intro hp
    rcases (main_panicked_iff env args s).1 hp with ⟨hb, hs⟩ | ⟨hb, hs⟩
    · rw [hadd hb] at hs; cases hs
    · rw [sliceFrom_eq_none] at hs
      match args, hb, hs with
      | [], hb, _ => rw [selectBranch_nil] at hb; cases hb
      | [x], hb, _ =>
        rcases selectBranch_update_cond [x] hb with h | h | ⟨_, h⟩
        · left; simpa [Arg] using h
        · right; simpa [Arg] using h
        · simp at h
      | _ :: _ :: _, _, hs => simp at hs; omega
  · intro h
    rw [main_panicked_iff]
    right
    rcases h with h | h <;> subst h
    · exact ⟨selectBranch_e [], by decide⟩
    · exact ⟨selectBranch_m [], by decide⟩
  · exact (main_panicked_iff env ["e"] s).2 (Or.inr ⟨selectBranch_e [], by decide⟩)
  · have hb : selectBranch ["e"] = .update := selectBranch_e []
    have hs : sliceFrom ["e"] 2 = none := by decide
    simp only [main, hb, hs]

/-- C10: read-only commands leave the store untouched.  When `main` selects
a listing branch, the detail branch, the help branch or the default branch,
it calls none of Add, UpdateTask, MarkAsCompleteTask, MarkAsPendingTask,
RemoveTask and FlushDB. -/
theorem read_only_branches_do_not_mutate {σ ρ : Type} (env : Env σ ρ)
    (args : List String) (s : σ)
    (h : selectBranch args = .listAll ∨ selectBranch args = .listPending ∨
      selectBranch args = .detail ∨ selectBranch args = .help ∨
      selectBranch args = .default) :
    ∀ c ∈ storeCalls (main env args s).trace,
      c.mutating = false ∧
      (∀ d t, c ≠ .Add d t) ∧ (∀ id d, c ≠ .UpdateTask id d) ∧
      (∀ id, c ≠ .MarkAsCompleteTask id) ∧ (∀ id, c ≠ .MarkAsPendingTask id) ∧
      (∀ id, c ≠ .RemoveTask id) ∧ c ≠ .FlushDB := by
  unfold main showTasksInTable
  revert h
  cases selectBranch args <;> intro h <;> dsimp only <;> (repeat' split) <;>
    simp_all [storeCalls, StoreCall.mutating, successText, warningText, errorText, showTask,
      printText]

/-- Witness for C10: `task s 1` on the sample store selects the detail
branch and calls only GetTask. -/
theorem read_only_branches_do_not_mutate_witness :
    selectBranch ["s", "1"] = .detail ∧
    storeCalls (main envYes ["s", "1"] sampleStore).trace = [.GetTask 1] ∧
    ∀ c ∈ storeCalls (main envYes ["s", "1"] sampleStore).trace, c.mutating = false :=
  ⟨by decide, by decide,
   fun c hc => (read_only_branches_do_not_mutate envYes ["s", "1"] sampleStore
     (Or.inr (Or.inr (Or.inl (by decide)))) c hc).1⟩

end TaskCli
